import Mathlib

/-!
Verification of the `CTIRegistry` Solidity contract (contracts/CTIRegistry.sol).

The contract state is embedded shallowly:
* `ctiCounter` is the `uint256` counter of assigned ids,
* `ctiRecords` (`mapping(uint256 => CTI)`) is represented by the dense list
  `records` of the assigned records (record with id `i` sits at index `i - 1`);
  reading any other key yields the zero struct `zeroCTI`, exactly as a Solidity
  mapping does,
* `hasVoted` (`mapping(uint256 => mapping(address => bool))`) is represented by
  the list `voted` of the (id, address) pairs that were set to `true`,
* `userSubmissions` (`mapping(address => uint256)`) is an association list,
* `events` is the log of emitted events, in emission order.

Every `require` is an early `Except.error` carrying one constructor per revert
message; `uint256` values are `Nat` (Solidity 0.8 reverts on overflow, so values
never wrap and the claims live far below `2^256`).
-/

namespace CTIRegistry

/-- Ethereum addresses, abstracted as an arbitrary identity with decidable
equality (`msg.sender` values and record submitters). -/
abbrev Address := String

/-- The `CTI` struct of the contract. -/
structure CTI where
  id : Nat
  submitter : Address
  ipfsHash : String
  category : String
  title : String
  timestamp : Nat
  upvotes : Nat
  downvotes : Nat
  isActive : Bool
deriving DecidableEq, Repr

/-- The zero value of the `CTI` struct: what a Solidity mapping returns at an
unassigned key.  In particular its `isActive` field is `false`. -/
def zeroCTI : CTI :=
  { id := 0, submitter := "", ipfsHash := "", category := "", title := ""
    timestamp := 0, upvotes := 0, downvotes := 0, isActive := false }

/-- The three events the contract declares: `CTISubmitted`, `CTIVoted`,
`CTIDeactivated`. -/
inductive Event where
  | CTISubmitted (id : Nat) (submitter : Address) (ipfsHash category title : String)
  | CTIVoted (id : Nat) (validator : Address) (isUpvote : Bool)
  | CTIDeactivated (id : Nat)
deriving DecidableEq, Repr

/-- One revert reason per `require` message in the contract. -/
inductive Err where
  | ctiDoesNotExist
  | ctiNotActive
  | alreadyVoted
  | ownSubmission
  | emptyIpfsHash
  | emptyCategory
  | emptyTitle
  | invalidLimit
deriving DecidableEq, Repr

/-- The abstract error taxonomy of the specification (§7). -/
inductive ErrKind where
  | invalidArgument
  | notFound
  | alreadyVoted
  | selfVoteForbidden
deriving DecidableEq, Repr

/-- Classification of each concrete revert reason into the specification's
error kinds: both existence and activity failures are `NotFound`. -/
def Err.kind : Err → ErrKind
  | .ctiDoesNotExist => .notFound
  | .ctiNotActive => .notFound
  | .alreadyVoted => .alreadyVoted
  | .ownSubmission => .selfVoteForbidden
  | .emptyIpfsHash => .invalidArgument
  | .emptyCategory => .invalidArgument
  | .emptyTitle => .invalidArgument
  | .invalidLimit => .invalidArgument

/-- Lookup in the dense record store; past the end it returns the mapping's
zero struct. -/
def lookupCTI : List CTI → Nat → CTI
  | [], _ => zeroCTI
  | r :: _, 0 => r
  | _ :: rest, n + 1 => lookupCTI rest n

/-- Pointwise update of the dense record store (no-op past the end). -/
def setCTI : List CTI → Nat → CTI → List CTI
  | [], _, _ => []
  | _ :: rest, 0, r => r :: rest
  | x :: rest, n + 1, r => x :: setCTI rest n r

/-- Reading the nested `hasVoted` mapping: `true` exactly on the recorded
(id, voter) pairs. -/
def votedLookup : List (Nat × Address) → Nat → Address → Bool
  | [], _, _ => false
  | (j, b) :: rest, i, a => if j = i ∧ b = a then true else votedLookup rest i a

/-- Reading the `userSubmissions` mapping (default 0). -/
def subsLookup : List (Address × Nat) → Address → Nat
  | [], _ => 0
  | (b, n) :: rest, a => if b = a then n else subsLookup rest a

/-- `userSubmissions[msg.sender]++`. -/
def subsBump : List (Address × Nat) → Address → List (Address × Nat)
  | [], a => [(a, 1)]
  | (b, n) :: rest, a => if b = a then (b, n + 1) :: rest else (b, n) :: subsBump rest a

/-- The contract's storage. -/
structure RegState where
  ctiCounter : Nat
  records : List CTI
  voted : List (Nat × Address)
  userSubmissions : List (Address × Nat)
  events : List Event
deriving DecidableEq, Repr

/-- Decidable equality of call results, so that concrete runs of the
contract can be checked by evaluation. -/
instance exceptDecidableEq {e a : Type} [DecidableEq e] [DecidableEq a] :
    DecidableEq (Except e a) := fun x y =>
  match x, y with
  | .ok v, .ok w =>
    if h : v = w then .isTrue (by rw [h]) else .isFalse (fun hc => h (Except.ok.inj hc))
  | .error v, .error w =>
    if h : v = w then .isTrue (by rw [h]) else .isFalse (fun hc => h (Except.error.inj hc))
  | .ok v, .error w => .isFalse (fun hc => Except.noConfusion hc)
  | .error v, .ok w => .isFalse (fun hc => Except.noConfusion hc)

/-- Storage right after deployment: `ctiCounter = 0`, all mappings empty. -/
def initState : RegState :=
  { ctiCounter := 0, records := [], voted := [], userSubmissions := [], events := [] }

/-- `ctiRecords[i]`: the record mapping read at key `i`. -/
def ctiRecords (s : RegState) (i : Nat) : CTI :=
  match i with
  | 0 => zeroCTI
  | n + 1 => lookupCTI s.records n

/-- `hasVoted[i][a]`. -/
def hasVotedMap (s : RegState) (i : Nat) (a : Address) : Bool :=
  votedLookup s.voted i a

/-- The `validCTI` modifier: `require(_id > 0 && _id <= ctiCounter)` then
`require(ctiRecords[_id].isActive)`; `none` means both checks pass. -/
def validCTI (s : RegState) (i : Nat) : Option Err :=
  if 0 < i ∧ i ≤ s.ctiCounter then
    if (ctiRecords s i).isActive then none else some .ctiNotActive
  else some .ctiDoesNotExist

/-- `submitCTI(_ipfsHash, _category, _title)`.  The Solidity function has no
return value; the allocated id is observable as the id carried by the emitted
`CTISubmitted` event, and is returned here alongside the new storage. -/
def submitCTI (s : RegState) (sender : Address) (ipfsHash category title : String)
    (timestamp : Nat) : Except Err (Nat × RegState) :=
  if ipfsHash = "" then .error .emptyIpfsHash
  else if category = "" then .error .emptyCategory
  else if title = "" then .error .emptyTitle
  else
    let newId := s.ctiCounter + 1
    let newRec : CTI :=
      { id := newId, submitter := sender, ipfsHash := ipfsHash, category := category
        title := title, timestamp := timestamp, upvotes := 0, downvotes := 0
        isActive := true }
    .ok (newId,
      { ctiCounter := newId
        records := s.records ++ [newRec]
        voted := s.voted
        userSubmissions := subsBump s.userSubmissions sender
        events := s.events ++ [.CTISubmitted newId sender ipfsHash category title] })

/-- The tally update of `voteCTI`: `upvotes++` or `downvotes++`. -/
def voteUpdate (r : CTI) (isUpvote : Bool) : CTI :=
  if isUpvote then { r with upvotes := r.upvotes + 1 }
  else { r with downvotes := r.downvotes + 1 }

/-- `voteCTI(_id, _isUpvote)` with its modifiers `validCTI(_id)` and
`hasNotVoted(_id)` evaluated first, then the self-vote `require`. -/
def voteCTI (s : RegState) (sender : Address) (i : Nat) (isUpvote : Bool) :
    Except Err RegState :=
  match validCTI s i with
  | some e => .error e
  | none =>
    if hasVotedMap s i sender then .error .alreadyVoted
    else if (ctiRecords s i).submitter = sender then .error .ownSubmission
    else
      .ok { s with
        records := setCTI s.records (i - 1) (voteUpdate (ctiRecords s i) isUpvote)
        voted := (i, sender) :: s.voted
        events := s.events ++ [.CTIVoted i sender isUpvote] }

/-- `getCTI(_id)`. -/
def getCTI (s : RegState) (i : Nat) : Except Err CTI :=
  match validCTI s i with
  | some e => .error e
  | none => .ok (ctiRecords s i)

/-- `getCTIScore(_id)`: `int256(upvotes) - int256(downvotes)`. -/
def getCTIScore (s : RegState) (i : Nat) : Except Err Int :=
  match validCTI s i with
  | some e => .error e
  | none => .ok ((ctiRecords s i).upvotes - (ctiRecords s i).downvotes : Int)

/-- The backwards scan of `getActiveCTIs` (`for i = ctiCounter; i > 0 && count
< limit; i--`): `count` active ids collected so far, `curOffset` active ids
seen so far. -/
def activeScan (s : RegState) (limit offset : Nat) : Nat → Nat → Nat → List Nat
  | 0, _, _ => []
  | i + 1, count, curOffset =>
    if limit ≤ count then []
    else if (ctiRecords s (i + 1)).isActive then
      if offset ≤ curOffset then
        (i + 1) :: activeScan s limit offset i (count + 1) (curOffset + 1)
      else activeScan s limit offset i count (curOffset + 1)
    else activeScan s limit offset i count curOffset

/-- `getActiveCTIs(_limit, _offset)`: the limit guard, then the backwards scan
(the final copy loop of the contract only trims the oversized scratch array, so
the collected list is returned directly). -/
def getActiveCTIs (s : RegState) (limit offset : Nat) : Except Err (List Nat) :=
  if 0 < limit ∧ limit ≤ 100 then
    .ok (activeScan s limit offset s.ctiCounter 0 0)
  else .error .invalidLimit

/-- `hasUserVoted(_id, _user)`: an unguarded mapping read. -/
def hasUserVoted (s : RegState) (i : Nat) (user : Address) : Bool :=
  hasVotedMap s i user

/-- The ascending counting loop of `getActiveCTICount`, as a recursion on the
upper bound: counts the active records among ids `1 .. n`. -/
def countActiveUpTo (s : RegState) : Nat → Nat
  | 0 => 0
  | n + 1 => countActiveUpTo s n + (if (ctiRecords s (n + 1)).isActive then 1 else 0)

/-- `getActiveCTICount()`. -/
def getActiveCTICount (s : RegState) : Nat :=
  countActiveUpTo s s.ctiCounter

/-- The two state-changing entry points of the contract, as transactions. -/
inductive Op where
  | submit (sender : Address) (ipfsHash category title : String) (timestamp : Nat)
  | vote (sender : Address) (id : Nat) (isUpvote : Bool)
deriving DecidableEq, Repr

/-- Transaction semantics: a reverted call leaves storage unchanged. -/
def step (s : RegState) : Op → RegState
  | .submit a h c t ts =>
    match submitCTI s a h c t ts with
    | .ok (_, s') => s'
    | .error _ => s
  | .vote a i up =>
    match voteCTI s a i up with
    | .ok s' => s'
    | .error _ => s

/-- Running a sequence of transactions. -/
def execTrace (s : RegState) (ops : List Op) : RegState :=
  ops.foldl step s

/-- Whether an `Op` is a `submitCTI` call that succeeds in the given state. -/
def submitSucceeds (s : RegState) : Op → Bool
  | .submit a h c t ts =>
    match submitCTI s a h c t ts with
    | .ok _ => true
    | .error _ => false
  | .vote _ _ _ => false

/-- Number of successful `submitCTI` calls along a trace. -/
def countSubmitOks : RegState → List Op → Nat
  | _, [] => 0
  | s, op :: rest =>
    (if submitSucceeds s op then 1 else 0) + countSubmitOks (step s op) rest

/-- The sequence of active ids among `n, n-1, …, 1` (descending). -/
def descActiveFrom (s : RegState) : Nat → List Nat
  | 0 => []
  | i + 1 =>
    if (ctiRecords s (i + 1)).isActive then (i + 1) :: descActiveFrom s i
    else descActiveFrom s i

/-- The full sequence of active record ids in descending id order: the
reference sequence of the pagination specification. -/
def activeIdsDesc (s : RegState) : List Nat :=
  descActiveFrom s s.ctiCounter

/-- A concrete three-submission trace (spec scenario A), used by witnesses. -/
def exampleOps : List Op :=
  [.submit "X" "h1" "Phishing" "T1" 10, .submit "X" "h2" "Malware" "T2" 11,
   .submit "Y" "h3" "Malware" "T3" 12]

/-- The three-record registry reached by `exampleOps`. -/
def exampleState : RegState := execTrace initState exampleOps

/-- `exampleState` after a fourth submission, by `Z`. -/
def exampleAfter : RegState := step exampleState (.submit "Z" "h4" "Malware" "T4" 13)

/-- `exampleState` after `Z` upvoted record 1. -/
def exampleVoted : RegState := step exampleState (.vote "Z" 1 true)

/-! ### Basic lemmas on the storage primitives -/

theorem lookupCTI_append_lt (l : List CTI) (r : CTI) (n : Nat) (h : n < l.length) :
    lookupCTI (l ++ [r]) n = lookupCTI l n := by
  induction l generalizing n with
  | nil => simp at h
  | cons x rest ih =>
    cases n with
    | zero => rfl
    | succ m => exact ih m (by simpa using h)

theorem lookupCTI_append_len (l : List CTI) (r : CTI) :
    lookupCTI (l ++ [r]) l.length = r := by
  induction l with
  | nil => rfl
  | cons x rest ih => simpa [lookupCTI] using ih

theorem lookupCTI_ge (l : List CTI) (n : Nat) (h : l.length ≤ n) :
    lookupCTI l n = zeroCTI := by
  induction l generalizing n with
  | nil => rfl
  | cons x rest ih =>
    cases n with
    | zero => simp at h
    | succ m => exact ih m (by simpa using h)

theorem setCTI_length (l : List CTI) (n : Nat) (r : CTI) :
    (setCTI l n r).length = l.length := by
  induction l generalizing n with
  | nil => rfl
  | cons x rest ih =>
    cases n with
    | zero => rfl
    | succ m => simpa [setCTI] using ih m

theorem lookupCTI_set_self (l : List CTI) (n : Nat) (r : CTI) (h : n < l.length) :
    lookupCTI (setCTI l n r) n = r := by
  induction l generalizing n with
  | nil => simp at h
  | cons x rest ih =>
    cases n with
    | zero => rfl
    | succ m => exact ih m (by simpa using h)

theorem lookupCTI_set_ne (l : List CTI) (n m : Nat) (r : CTI) (h : m ≠ n) :
    lookupCTI (setCTI l n r) m = lookupCTI l m := by
  induction l generalizing n m with
  | nil => rfl
  | cons x rest ih =>
    cases n with
    | zero =>
      cases m with
      | zero => exact absurd rfl h
      | succ k => rfl
    | succ n' =>
      cases m with
      | zero => rfl
      | succ k => exact ih n' k (by omega)

theorem votedLookup_iff (v : List (Nat × Address)) (i : Nat) (a : Address) :
    votedLookup v i a = true ↔ (i, a) ∈ v := by
  induction v with
  | nil => simp [votedLookup]
  | cons p rest ih =>
    obtain ⟨j, b⟩ := p
    by_cases hp : j = i ∧ b = a
    · simp [votedLookup, hp, hp.1, hp.2]
    · have hne : ¬((i, a) = (j, b)) := by
        intro hcontra
        exact hp ⟨(Prod.mk.injEq _ _ _ _ ▸ hcontra).1.symm,
          (Prod.mk.injEq _ _ _ _ ▸ hcontra).2.symm⟩
      simp [votedLookup, hp, ih, hne]

theorem ctiRecords_active_bounds (s : RegState) (i : Nat)
    (h : (ctiRecords s i).isActive = true) : 1 ≤ i ∧ i - 1 < s.records.length := by
  cases i with
  | zero => simp [ctiRecords, zeroCTI] at h
  | succ n =>
    refine ⟨Nat.succ_le_succ (Nat.zero_le n), ?_⟩
    by_contra hge
    rw [ctiRecords, lookupCTI_ge s.records n (by omega)] at h
    simp [zeroCTI] at h

/-! ### Characterizations of the entry points -/

theorem submitCTI_ok_iff (s s' : RegState) (a : Address) (hsh cat ttl : String)
    (ts n : Nat) :
    submitCTI s a hsh cat ttl ts = .ok (n, s') ↔
      hsh ≠ "" ∧ cat ≠ "" ∧ ttl ≠ "" ∧ n = s.ctiCounter + 1 ∧
      s' = { ctiCounter := s.ctiCounter + 1
             records := s.records ++
               [{ id := s.ctiCounter + 1, submitter := a, ipfsHash := hsh
                  category := cat, title := ttl, timestamp := ts, upvotes := 0
                  downvotes := 0, isActive := true }]
             voted := s.voted
             userSubmissions := subsBump s.userSubmissions a
             events := s.events ++
               [.CTISubmitted (s.ctiCounter + 1) a hsh cat ttl] } := by
  by_cases hh : hsh = ""
  · simp [submitCTI, hh]
  · by_cases hc : cat = ""
    · simp [submitCTI, hh, hc]
    · by_cases ht : ttl = ""
      · simp [submitCTI, hh, hc, ht]
      · simp only [submitCTI, hh, hc, ht, ite_false]
        constructor
        · intro hok
          have hinj := Except.ok.inj hok
          exact ⟨hh, hc, ht, (Prod.mk.injEq _ _ _ _ ▸ hinj).1.symm,
            (Prod.mk.injEq _ _ _ _ ▸ hinj).2.symm⟩
        · rintro ⟨-, -, -, hn, hs⟩
          rw [hn, hs]

theorem voteCTI_ok_iff (s s' : RegState) (a : Address) (i : Nat) (up : Bool) :
    voteCTI s a i up = .ok s' ↔
      (0 < i ∧ i ≤ s.ctiCounter) ∧ (ctiRecords s i).isActive = true ∧
      hasVotedMap s i a = false ∧ (ctiRecords s i).submitter ≠ a ∧
      s' = { s with
             records := setCTI s.records (i - 1) (voteUpdate (ctiRecords s i) up)
             voted := (i, a) :: s.voted
             events := s.events ++ [.CTIVoted i a up] } := by
  by_cases hrange : 0 < i ∧ i ≤ s.ctiCounter
  · by_cases hact : (ctiRecords s i).isActive
    · have hv : validCTI s i = none := by
        rw [validCTI, if_pos hrange, if_pos hact]
      by_cases hvoted : hasVotedMap s i a
      · simp [voteCTI, hv, hvoted]
      · by_cases hself : (ctiRecords s i).submitter = a
        · simp [voteCTI, hv, hvoted, hself]
        · have hvoted' : hasVotedMap s i a = false := by
            simp only [Bool.not_eq_true] at hvoted
            exact hvoted
          simp only [voteCTI, hv]
          rw [hvoted']
          simp only [Bool.false_eq_true, if_false, ite_false, if_neg hself]
          constructor
          · intro hok
            refine ⟨hrange, hact, ?_, hself, (Except.ok.inj hok).symm⟩
            simp [hvoted']
          · rintro ⟨-, -, -, -, hs⟩
            rw [hs]
    · simp [voteCTI, validCTI, hrange, hact]
  · simp [voteCTI, validCTI, hrange]

/-! ### The pagination scan computes a slice of the descending active-id list -/

theorem activeScan_eq (s : RegState) (limit offset i count curOffset : Nat) :
    activeScan s limit offset i count curOffset
      = ((descActiveFrom s i).drop (offset - curOffset)).take (limit - count) := by
  induction i generalizing count curOffset with
  | zero => simp [activeScan, descActiveFrom]
  | succ i ih =>
    by_cases hlc : limit ≤ count
    · have hz : limit - count = 0 := by omega
      simp [activeScan, hlc, hz]
    · by_cases hact : (ctiRecords s (i + 1)).isActive
      · by_cases hoff : offset ≤ curOffset
        · have h1 : offset - curOffset = 0 := by omega
          have h2 : offset - (curOffset + 1) = 0 := by omega
          have h3 : limit - count = (limit - (count + 1)) + 1 := by omega
          rw [activeScan]
          simp only [hlc, if_false, hact, if_true, hoff, ite_true, ite_false,
            descActiveFrom, ih, h1, h2, h3, List.drop_zero, List.take_succ_cons]
        · have h1 : offset - curOffset = (offset - (curOffset + 1)) + 1 := by omega
          rw [activeScan]
          simp only [hlc, if_false, hact, if_true, hoff, ite_true, ite_false,
            descActiveFrom, ih, h1, List.drop_succ_cons]
      · simp [activeScan, descActiveFrom, hlc, hact, ih]

theorem getActiveCTIs_eq (s : RegState) (limit offset : Nat) (h1 : 0 < limit)
    (h2 : limit ≤ 100) :
    getActiveCTIs s limit offset = .ok (((activeIdsDesc s).drop offset).take limit) := by
  have h : 0 < limit ∧ limit ≤ 100 := ⟨h1, h2⟩
  simp [getActiveCTIs, h, activeScan_eq, activeIdsDesc]

theorem descActiveFrom_le (s : RegState) (i : Nat) :
    ∀ j ∈ descActiveFrom s i, j ≤ i := by
  induction i with
  | zero => simp [descActiveFrom]
  | succ i ih =>
    intro j hj
    rw [descActiveFrom] at hj
    by_cases hact : (ctiRecords s (i + 1)).isActive
    · rw [if_pos hact] at hj
      rcases List.mem_cons.mp hj with h | h
      · omega
      · exact Nat.le_succ_of_le (ih j h)
    · rw [if_neg hact] at hj
      exact Nat.le_succ_of_le (ih j hj)

theorem descActiveFrom_pairwise (s : RegState) (i : Nat) :
    (descActiveFrom s i).Pairwise (fun x y => y < x) := by
  induction i with
  | zero => simp [descActiveFrom]
  | succ i ih =>
    rw [descActiveFrom]
    by_cases hact : (ctiRecords s (i + 1)).isActive
    · rw [if_pos hact]
      exact List.pairwise_cons.mpr
        ⟨fun j hj => by have := descActiveFrom_le s i j hj; omega, ih⟩
    · rw [if_neg hact]; exact ih

theorem chunked_take (limit : Nat) (l : List Nat) (n : Nat) :
    (List.range n).flatMap (fun k => (l.drop (k * limit)).take limit)
      = l.take (n * limit) := by
  induction n with
  | zero => simp
  | succ n ih =>
    rw [List.range_succ, List.flatMap_append, ih]
    simp only [List.flatMap_cons, List.flatMap_nil, List.append_nil]
    rw [Nat.succ_mul, List.take_add]

/-! ### Step lemmas: how one transaction transforms the storage -/

theorem voteUpdate_isActive (r : CTI) (up : Bool) :
    (voteUpdate r up).isActive = r.isActive := by
  cases up <;> rfl

theorem voteUpdate_submitter (r : CTI) (up : Bool) :
    (voteUpdate r up).submitter = r.submitter := by
  cases up <;> rfl

theorem step_submit_ok (s s' : RegState) (a : Address) (hsh cat ttl : String)
    (ts n : Nat) (h : submitCTI s a hsh cat ttl ts = .ok (n, s')) :
    step s (.submit a hsh cat ttl ts) = s' := by
  simp [step, h]

theorem step_submit_err (s : RegState) (a : Address) (hsh cat ttl : String)
    (ts : Nat) (e : Err) (h : submitCTI s a hsh cat ttl ts = .error e) :
    step s (.submit a hsh cat ttl ts) = s := by
  simp [step, h]

theorem step_vote_ok (s s' : RegState) (a : Address) (i : Nat) (up : Bool)
    (h : voteCTI s a i up = .ok s') : step s (.vote a i up) = s' := by
  simp [step, h]

theorem step_vote_err (s : RegState) (a : Address) (i : Nat) (up : Bool)
    (e : Err) (h : voteCTI s a i up = .error e) : step s (.vote a i up) = s := by
  simp [step, h]

theorem ctiRecords_vote_ok (s s' : RegState) (a : Address) (j : Nat) (up : Bool)
    (h : voteCTI s a j up = .ok s') (i : Nat) :
    ctiRecords s' i = if i = j then voteUpdate (ctiRecords s j) up else ctiRecords s i := by
  obtain ⟨hrange, hact, -, -, hs⟩ := (voteCTI_ok_iff s s' a j up).mp h
  have hbound := ctiRecords_active_bounds s j hact
  cases i with
  | zero =>
    have : (0 : Nat) ≠ j := by omega
    simp [this, ctiRecords]
  | succ m =>
    by_cases hij : m + 1 = j
    · have hm : m = j - 1 := by omega
      rw [if_pos hij, hs]
      simp only [ctiRecords]
      rw [hm, lookupCTI_set_self _ _ _ hbound.2]
    · rw [if_neg hij, hs]
      simp only [ctiRecords]
      exact lookupCTI_set_ne _ _ _ _ (by omega)

theorem ctiRecords_submit_ok_old (s s' : RegState) (a : Address)
    (hsh cat ttl : String) (ts n i : Nat) (h : submitCTI s a hsh cat ttl ts = .ok (n, s'))
    (hi : i - 1 < s.records.length) : ctiRecords s' i = ctiRecords s i := by
  obtain ⟨-, -, -, -, hs⟩ := (submitCTI_ok_iff s s' a hsh cat ttl ts n).mp h
  cases i with
  | zero => rw [hs]; rfl
  | succ m =>
    rw [hs]
    simp only [ctiRecords]
    exact lookupCTI_append_lt _ _ _ (by omega)

theorem step_ctiCounter_mono (s : RegState) (op : Op) :
    s.ctiCounter ≤ (step s op).ctiCounter := by
  cases op with
  | submit a hsh cat ttl ts =>
    cases hcall : submitCTI s a hsh cat ttl ts with
    | error e => rw [step_submit_err s a hsh cat ttl ts e hcall]
    | ok p =>
      obtain ⟨n, s'⟩ := p
      rw [step_submit_ok s s' a hsh cat ttl ts n hcall]
      obtain ⟨-, -, -, -, hs⟩ := (submitCTI_ok_iff s s' a hsh cat ttl ts n).mp hcall
      rw [hs]
      exact Nat.le_succ _
  | vote a i up =>
    cases hcall : voteCTI s a i up with
    | error e => rw [step_vote_err s a i up e hcall]
    | ok s' =>
      rw [step_vote_ok s s' a i up hcall]
      obtain ⟨-, -, -, -, hs⟩ := (voteCTI_ok_iff s s' a i up).mp hcall
      rw [hs]

theorem step_voted_mono (s : RegState) (op : Op) (i : Nat) (a : Address)
    (h : hasVotedMap s i a = true) : hasVotedMap (step s op) i a = true := by
  cases op with
  | submit b hsh cat ttl ts =>
    cases hcall : submitCTI s b hsh cat ttl ts with
    | error e => rw [step_submit_err s b hsh cat ttl ts e hcall]; exact h
    | ok p =>
      obtain ⟨n, s'⟩ := p
      rw [step_submit_ok s s' b hsh cat ttl ts n hcall]
      obtain ⟨-, -, -, -, hs⟩ := (submitCTI_ok_iff s s' b hsh cat ttl ts n).mp hcall
      rw [hs]
      exact h
  | vote b j up =>
    cases hcall : voteCTI s b j up with
    | error e => rw [step_vote_err s b j up e hcall]; exact h
    | ok s' =>
      rw [step_vote_ok s s' b j up hcall]
      obtain ⟨-, -, -, -, hs⟩ := (voteCTI_ok_iff s s' b j up).mp hcall
      rw [hs]
      simp only [hasVotedMap] at h ⊢
      rw [votedLookup]
      split
      · rfl
      · exact h

theorem step_active_persists (s : RegState) (op : Op) (i : Nat)
    (h : (ctiRecords s i).isActive = true) :
    (ctiRecords (step s op) i).isActive = true := by
  have hbound := ctiRecords_active_bounds s i h
  cases op with
  | submit b hsh cat ttl ts =>
    cases hcall : submitCTI s b hsh cat ttl ts with
    | error e => rw [step_submit_err s b hsh cat ttl ts e hcall]; exact h
    | ok p =>
      obtain ⟨n, s'⟩ := p
      rw [step_submit_ok s s' b hsh cat ttl ts n hcall]
      rw [ctiRecords_submit_ok_old s s' b hsh cat ttl ts n i hcall hbound.2]
      exact h
  | vote b j up =>
    cases hcall : voteCTI s b j up with
    | error e => rw [step_vote_err s b j up e hcall]; exact h
    | ok s' =>
      rw [step_vote_ok s s' b j up hcall]
      rw [ctiRecords_vote_ok s s' b j up hcall i]
      by_cases hij : i = j
      · rw [if_pos hij, voteUpdate_isActive, ← hij]
        exact h
      · rw [if_neg hij]
        exact h

theorem execTrace_preserve (P : RegState → Prop)
    (hstep : ∀ s op, P s → P (step s op)) :
    ∀ (ops : List Op) (s : RegState), P s → P (execTrace s ops) := by
  intro ops
  induction ops with
  | nil => intro s h; exact h
  | cons op rest ih =>
    intro s h
    rw [execTrace, List.foldl_cons]
    exact ih (step s op) (hstep s op h)

theorem execTrace_ctiCounter_mono (ops : List Op) (s : RegState) :
    s.ctiCounter ≤ (execTrace s ops).ctiCounter := by
  have := execTrace_preserve (fun s₂ => s.ctiCounter ≤ s₂.ctiCounter)
    (fun s₂ op h => le_trans h (step_ctiCounter_mono s₂ op)) ops s (le_refl _)
  exact this

theorem execTrace_voted_mono (ops : List Op) (s : RegState) (i : Nat) (a : Address)
    (h : hasVotedMap s i a = true) : hasVotedMap (execTrace s ops) i a = true :=
  execTrace_preserve (fun s₂ => hasVotedMap s₂ i a = true)
    (fun s₂ op h₂ => step_voted_mono s₂ op i a h₂) ops s h

theorem execTrace_active_persists (ops : List Op) (s : RegState) (i : Nat)
    (h : (ctiRecords s i).isActive = true) :
    (ctiRecords (execTrace s ops) i).isActive = true :=
  execTrace_preserve (fun s₂ => (ctiRecords s₂ i).isActive = true)
    (fun s₂ op h₂ => step_active_persists s₂ op i h₂) ops s h

theorem votedLookup_eq_false (v : List (Nat × Address)) (i : Nat) (a : Address)
    (h : (i, a) ∉ v) : votedLookup v i a = false := by
  cases hl : votedLookup v i a
  · rfl
  · exact absurd ((votedLookup_iff v i a).mp hl) h

theorem ctiRecords_submit_ok_new (s s' : RegState) (a : Address)
    (hsh cat ttl : String) (ts n : Nat)
    (h : submitCTI s a hsh cat ttl ts = .ok (n, s'))
    (hlen : s.ctiCounter = s.records.length) :
    ctiRecords s' (s.ctiCounter + 1) =
      { id := s.ctiCounter + 1, submitter := a, ipfsHash := hsh, category := cat
        title := ttl, timestamp := ts, upvotes := 0, downvotes := 0
        isActive := true } := by
  obtain ⟨-, -, -, -, hs⟩ := (submitCTI_ok_iff s s' a hsh cat ttl ts n).mp h
  rw [hs]
  simp only [ctiRecords]
  rw [hlen, lookupCTI_append_len]

/-! ### The reachable-state invariant -/

/-- Invariant of every storage reachable from deployment: the id space is
dense (`ctiCounter` counts the stored records), every recorded vote points
into the assigned id range, no submitter holds a vote on the own record,
every assigned record is active, and no `CTIDeactivated` event was ever
emitted. -/
def Inv (s : RegState) : Prop :=
  s.ctiCounter = s.records.length
  ∧ (∀ p ∈ s.voted, 1 ≤ p.1 ∧ p.1 ≤ s.ctiCounter)
  ∧ (∀ i, 1 ≤ i → i ≤ s.ctiCounter →
      hasVotedMap s i (ctiRecords s i).submitter = false)
  ∧ (∀ i, 1 ≤ i → i ≤ s.ctiCounter → (ctiRecords s i).isActive = true)
  ∧ (∀ n, Event.CTIDeactivated n ∉ s.events)

theorem inv_init : Inv initState := by
  refine ⟨rfl, ?_, ?_, ?_, ?_⟩
  · intro p hp; simp [initState] at hp
  · intro i h1 h2; simp [initState] at h1 h2; omega
  · intro i h1 h2; simp [initState] at h1 h2; omega
  · intro n; simp [initState]

theorem inv_step (s : RegState) (op : Op) (hInv : Inv s) : Inv (step s op) := by
  obtain ⟨hlen, hbnd, hnoself, hactive, hev⟩ := hInv
  cases op with
  | submit a hsh cat ttl ts =>
    cases hcall : submitCTI s a hsh cat ttl ts with
    | error e =>
      rw [step_submit_err s a hsh cat ttl ts e hcall]
      exact ⟨hlen, hbnd, hnoself, hactive, hev⟩
    | ok p =>
      obtain ⟨n, s'⟩ := p
      rw [step_submit_ok s s' a hsh cat ttl ts n hcall]
      obtain ⟨-, -, -, -, hs⟩ := (submitCTI_ok_iff s s' a hsh cat ttl ts n).mp hcall
      have hold : ∀ i, 1 ≤ i → i ≤ s.ctiCounter → ctiRecords s' i = ctiRecords s i := by
        intro i h1 h2
        exact ctiRecords_submit_ok_old s s' a hsh cat ttl ts n i hcall (by omega)
      have hnew := ctiRecords_submit_ok_new s s' a hsh cat ttl ts n hcall hlen
      have hcnt : s'.ctiCounter = s.ctiCounter + 1 := by rw [hs]
      have hvoted' : s'.voted = s.voted := by rw [hs]
      refine ⟨?_, ?_, ?_, ?_, ?_⟩
      · rw [hs]; simp [hlen]
      · intro p hp
        rw [hvoted'] at hp
        have := hbnd p hp
        omega
      · intro i h1 h2
        rw [hcnt] at h2
        simp only [hasVotedMap, hvoted']
        by_cases hi : i ≤ s.ctiCounter
        · rw [hold i h1 hi]
          exact hnoself i h1 hi
        · have hieq : i = s.ctiCounter + 1 := by omega
          rw [hieq, hnew]
          refine votedLookup_eq_false _ _ _ ?_
          intro hmem
          have hle : s.ctiCounter + 1 ≤ s.ctiCounter := by
            have hp := (hbnd _ hmem).2
            simpa using hp
          omega
      · intro i h1 h2
        rw [hcnt] at h2
        by_cases hi : i ≤ s.ctiCounter
        · rw [hold i h1 hi]
          exact hactive i h1 hi
        · have hieq : i = s.ctiCounter + 1 := by omega
          rw [hieq, hnew]
      · intro m
        rw [hs]
        simp [hev m]
  | vote a j up =>
    cases hcall : voteCTI s a j up with
    | error e =>
      rw [step_vote_err s a j up e hcall]
      exact ⟨hlen, hbnd, hnoself, hactive, hev⟩
    | ok s' =>
      rw [step_vote_ok s s' a j up hcall]
      obtain ⟨hrange, hact, -, hneq, hs⟩ := (voteCTI_ok_iff s s' a j up).mp hcall
      have hrec := ctiRecords_vote_ok s s' a j up hcall
      have hcnt : s'.ctiCounter = s.ctiCounter := by rw [hs]
      have hvt : s'.voted = (j, a) :: s.voted := by rw [hs]
      have hsub : ∀ i, (ctiRecords s' i).submitter = (ctiRecords s i).submitter := by
        intro i
        rw [hrec i]
        by_cases hij : i = j
        · rw [if_pos hij, voteUpdate_submitter, hij]
        · rw [if_neg hij]
      refine ⟨?_, ?_, ?_, ?_, ?_⟩
      · rw [hs]; simp [setCTI_length, hlen]
      · intro p hp
        rw [hvt] at hp
        rcases List.mem_cons.mp hp with hp | hp
        · rw [hp, hcnt]
          exact ⟨hrange.1, hrange.2⟩
        · rw [hcnt]
          exact hbnd p hp
      · intro i h1 h2
        rw [hcnt] at h2
        simp only [hasVotedMap, hvt, hsub i]
        rw [votedLookup]
        split
        · rename_i hcond
          exfalso
          obtain ⟨hji, hasub⟩ := hcond
          rw [← hji] at hasub
          exact hneq hasub.symm
        · exact hnoself i h1 h2
      · intro i h1 h2
        rw [hcnt] at h2
        rw [hrec i]
        by_cases hij : i = j
        · rw [if_pos hij, voteUpdate_isActive]
          exact hact
        · rw [if_neg hij]
          exact hactive i h1 h2
      · intro m
        rw [hs]
        simp [hev m]

theorem inv_reachable (ops : List Op) : Inv (execTrace initState ops) :=
  execTrace_preserve Inv inv_step ops initState inv_init

/-! ### Counting successful submissions along a trace -/

theorem step_ctiCounter_eq (s : RegState) (op : Op) :
    (step s op).ctiCounter = s.ctiCounter + (if submitSucceeds s op then 1 else 0) := by
  cases op with
  | submit a hsh cat ttl ts =>
    cases hcall : submitCTI s a hsh cat ttl ts with
    | error e =>
      rw [step_submit_err s a hsh cat ttl ts e hcall]
      simp [submitSucceeds, hcall]
    | ok p =>
      obtain ⟨n, s'⟩ := p
      rw [step_submit_ok s s' a hsh cat ttl ts n hcall]
      obtain ⟨-, -, -, -, hs⟩ := (submitCTI_ok_iff s s' a hsh cat ttl ts n).mp hcall
      simp [submitSucceeds, hcall, hs]
  | vote a i up =>
    cases hcall : voteCTI s a i up with
    | error e =>
      rw [step_vote_err s a i up e hcall]
      simp [submitSucceeds]
    | ok s' =>
      rw [step_vote_ok s s' a i up hcall]
      obtain ⟨-, -, -, -, hs⟩ := (voteCTI_ok_iff s s' a i up).mp hcall
      simp [submitSucceeds, hs]

theorem execTrace_ctiCounter_eq (ops : List Op) :
    ∀ s : RegState, (execTrace s ops).ctiCounter = s.ctiCounter + countSubmitOks s ops := by
  induction ops with
  | nil => intro s; simp [execTrace, countSubmitOks]
  | cons op rest ih =>
    intro s
    rw [execTrace, List.foldl_cons, countSubmitOks]
    have h1 : (execTrace (step s op) rest).ctiCounter
        = (step s op).ctiCounter + countSubmitOks (step s op) rest := ih (step s op)
    rw [execTrace] at h1
    rw [h1, step_ctiCounter_eq]
    omega

/-! ### The active-record counter -/

theorem countActiveUpTo_all_active (s : RegState) (n : Nat)
    (h : ∀ i, 1 ≤ i → i ≤ n → (ctiRecords s i).isActive = true) :
    countActiveUpTo s n = n := by
  induction n with
  | zero => rfl
  | succ n ih =>
    rw [countActiveUpTo, ih (fun i h1 h2 => h i h1 (by omega)),
      if_pos (h (n + 1) (by omega) (le_refl _))]

theorem validCTI_notFound (s : RegState) (i : Nat) (e : Err)
    (h : validCTI s i = some e) : Err.kind e = .notFound := by
  rw [validCTI] at h
  split at h
  · split at h
    · simp at h
    · rw [← Option.some.inj h]
      rfl
  · rw [← Option.some.inj h]
    rfl

theorem getCTI_err (s : RegState) (i : Nat) (e : Err) (h : validCTI s i = some e) :
    getCTI s i = .error e := by
  simp [getCTI, h]

theorem voteCTI_err_of_invalid (s : RegState) (a : Address) (i : Nat) (up : Bool)
    (e : Err) (h : validCTI s i = some e) : voteCTI s a i up = .error e := by
  simp [voteCTI, h]

/-! ### The claims -/

/-- C1: after any transaction trace from deployment, `ctiCounter` equals the
number of successful `submitCTI` calls so far and equals the number of stored
records (so `nextId = count(records) + 1`); a further successful `submitCTI`
allocates id `ctiCounter + 1` — the nth successful submission gets id n — and
that id is the operation's result, carried by the emitted `CTISubmitted`
event. -/
theorem submit_sequential_ids (ops : List Op) (a : Address) (hsh cat ttl : String)
    (ts n : Nat) (s' : RegState)
    (hok : submitCTI (execTrace initState ops) a hsh cat ttl ts = .ok (n, s')) :
    n = countSubmitOks initState ops + 1
    ∧ (execTrace initState ops).ctiCounter = countSubmitOks initState ops
    ∧ (execTrace initState ops).ctiCounter = (execTrace initState ops).records.length
    ∧ s'.ctiCounter = s'.records.length
    ∧ s'.events = (execTrace initState ops).events
        ++ [Event.CTISubmitted n a hsh cat ttl] := by
  have hcnt := execTrace_ctiCounter_eq ops initState
  have h0 : initState.ctiCounter = 0 := rfl
  obtain ⟨hlen, -, -, -, -⟩ := inv_reachable ops
  obtain ⟨-, -, -, hn, hs⟩ :=
    (submitCTI_ok_iff (execTrace initState ops) s' a hsh cat ttl ts n).mp hok
  refine ⟨by omega, by omega, hlen, ?_, ?_⟩
  · rw [hs]
    simp [hlen]
  · rw [hs, hn]

theorem submit_sequential_ids_witness :
    4 = countSubmitOks initState exampleOps + 1 :=
  (submit_sequential_ids exampleOps "Z" "h4" "Malware" "T4" 13 4 exampleAfter
    (by decide)).1

/-- C2: for any record set and any limit in [1, 100], `getActiveCTIs` returns
exactly the sub-slice [offset, offset+limit) of the descending sequence of
active record ids (inactive records consume no offset or limit budget), the
result length is min(limit, active ids remaining past the offset), the
reference sequence is strictly descending (hence duplicate-free), and the
pages at offsets 0, limit, 2·limit, … concatenate back to the whole
sequence with no duplicates or gaps. -/
theorem listActive_pagination (s : RegState) (limit offset : Nat)
    (h1 : 1 ≤ limit) (h2 : limit ≤ 100) :
    getActiveCTIs s limit offset = .ok (((activeIdsDesc s).drop offset).take limit)
    ∧ (((activeIdsDesc s).drop offset).take limit).length
        = min limit ((activeIdsDesc s).length - offset)
    ∧ (activeIdsDesc s).Pairwise (fun x y => y < x)
    ∧ (∀ n, (activeIdsDesc s).length ≤ n * limit →
        (List.range n).flatMap (fun k =>
          match getActiveCTIs s limit (k * limit) with
          | .ok page => page
          | .error _ => []) = activeIdsDesc s) := by
  refine ⟨getActiveCTIs_eq s limit offset h1 h2, ?_,
    descActiveFrom_pairwise s s.ctiCounter, ?_⟩
  · rw [List.length_take, List.length_drop]
  · intro n hn
    have heach : ∀ k : Nat,
        (match getActiveCTIs s limit (k * limit) with
         | .ok page => page
         | .error _ => []) = ((activeIdsDesc s).drop (k * limit)).take limit := by
      intro k
      rw [getActiveCTIs_eq s limit (k * limit) h1 h2]
    simp only [heach]
    rw [chunked_take limit (activeIdsDesc s) n]
    exact List.take_of_length_le hn

theorem listActive_pagination_witness :
    getActiveCTIs exampleState 2 1 = .ok (((activeIdsDesc exampleState).drop 1).take 2)
    ∧ (((activeIdsDesc exampleState).drop 1).take 2).length
        = min 2 ((activeIdsDesc exampleState).length - 1) :=
  ⟨(listActive_pagination exampleState 2 1 (by decide) (by decide)).1,
   (listActive_pagination exampleState 2 1 (by decide) (by decide)).2.1⟩

/-- C3: `voteCTI` evaluates its preconditions in the fixed order existence →
activity → duplicate vote → self vote, short-circuiting at the first
violation: an id outside [1, ctiCounter] reverts with the first `NotFound`
reason, an inactive record with the second `NotFound` reason (one observable
`NotFound` outcome), a repeated voter with `AlreadyVoted`, and the record's
own submitter with `SelfVoteForbidden`. -/
theorem vote_error_order (s : RegState) (a : Address) (i : Nat) (up : Bool) :
    (¬(0 < i ∧ i ≤ s.ctiCounter) →
        voteCTI s a i up = .error .ctiDoesNotExist
        ∧ Err.kind .ctiDoesNotExist = .notFound)
    ∧ ((0 < i ∧ i ≤ s.ctiCounter) → (ctiRecords s i).isActive = false →
        voteCTI s a i up = .error .ctiNotActive
        ∧ Err.kind .ctiNotActive = .notFound)
    ∧ ((0 < i ∧ i ≤ s.ctiCounter) → (ctiRecords s i).isActive = true →
        hasVotedMap s i a = true →
        voteCTI s a i up = .error .alreadyVoted
        ∧ Err.kind .alreadyVoted = .alreadyVoted)
    ∧ ((0 < i ∧ i ≤ s.ctiCounter) → (ctiRecords s i).isActive = true →
        hasVotedMap s i a = false → (ctiRecords s i).submitter = a →
        voteCTI s a i up = .error .ownSubmission
        ∧ Err.kind .ownSubmission = .selfVoteForbidden) := by
  refine ⟨?_, ?_, ?_, ?_⟩
  · intro h
    exact ⟨by simp [voteCTI, validCTI, h], rfl⟩
  · intro h hact
    exact ⟨by simp [voteCTI, validCTI, h, hact], rfl⟩
  · intro h hact hv
    have hvalid : validCTI s i = none := by
      rw [validCTI, if_pos h, if_pos hact]
    exact ⟨by simp [voteCTI, hvalid, hv], rfl⟩
  · intro h hact hv hself
    have hvalid : validCTI s i = none := by
      rw [validCTI, if_pos h, if_pos hact]
    exact ⟨by simp [voteCTI, hvalid, hv, hself], rfl⟩

theorem vote_error_order_witness :
    voteCTI initState "A" 1 true = .error .ctiDoesNotExist
    ∧ Err.kind .ctiDoesNotExist = .notFound :=
  (vote_error_order initState "A" 1 true).1 (by decide)

/-- C4: a `submitCTI` call with an empty `ipfsHash`, `category` or `title`
reverts with an `InvalidArgument`-kind error and the transaction leaves the
storage — counter, records, vote relation, per-submitter counters, events —
exactly as it was. -/
theorem submit_empty_invalid (s : RegState) (a : Address) (hsh cat ttl : String)
    (ts : Nat) (hempty : hsh = "" ∨ cat = "" ∨ ttl = "") :
    (∃ e, submitCTI s a hsh cat ttl ts = .error e ∧ Err.kind e = .invalidArgument)
    ∧ step s (.submit a hsh cat ttl ts) = s := by
  by_cases hh : hsh = ""
  · exact ⟨⟨.emptyIpfsHash, by simp [submitCTI, hh], rfl⟩,
      step_submit_err s a hsh cat ttl ts .emptyIpfsHash (by simp [submitCTI, hh])⟩
  · by_cases hc : cat = ""
    · exact ⟨⟨.emptyCategory, by simp [submitCTI, hh, hc], rfl⟩,
        step_submit_err s a hsh cat ttl ts .emptyCategory (by simp [submitCTI, hh, hc])⟩
    · have ht : ttl = "" := by tauto
      exact ⟨⟨.emptyTitle, by simp [submitCTI, hh, hc, ht], rfl⟩,
        step_submit_err s a hsh cat ttl ts .emptyTitle (by simp [submitCTI, hh, hc, ht])⟩

theorem submit_empty_invalid_witness :
    step exampleState (.submit "X" "" "Malware" "Title" 0) = exampleState :=
  (submit_empty_invalid exampleState "X" "" "Malware" "Title" 0 (Or.inl rfl)).2

/-- C5: once `voteCTI` succeeds for a (id, voter) pair, every later `voteCTI`
call by the same voter on the same id — after any interleaved transactions —
reverts with `AlreadyVoted`, and the failed transaction leaves the storage
(in particular both tallies of the record) unchanged. -/
theorem vote_exactly_once (s s₁ : RegState) (voter : Address) (i : Nat)
    (up : Bool) (hok : voteCTI s voter i up = .ok s₁) (ops : List Op) (up' : Bool) :
    voteCTI (execTrace s₁ ops) voter i up' = .error .alreadyVoted
    ∧ step (execTrace s₁ ops) (.vote voter i up') = execTrace s₁ ops := by
  obtain ⟨hrange, hact, -, -, hs⟩ := (voteCTI_ok_iff s s₁ voter i up).mp hok
  have hcnt1 : s₁.ctiCounter = s.ctiCounter := by rw [hs]
  have hvoted1 : hasVotedMap s₁ i voter = true := by
    rw [hs]
    simp [hasVotedMap, votedLookup]
  have hact1 : (ctiRecords s₁ i).isActive = true := by
    rw [ctiRecords_vote_ok s s₁ voter i up hok i, if_pos rfl, voteUpdate_isActive]
    exact hact
  have hcnt2 : i ≤ (execTrace s₁ ops).ctiCounter :=
    le_trans (by omega) (execTrace_ctiCounter_mono ops s₁)
  have hvoted2 : hasVotedMap (execTrace s₁ ops) i voter = true :=
    execTrace_voted_mono ops s₁ i voter hvoted1
  have hact2 : (ctiRecords (execTrace s₁ ops) i).isActive = true :=
    execTrace_active_persists ops s₁ i hact1
  have hvalid : validCTI (execTrace s₁ ops) i = none := by
    rw [validCTI, if_pos ⟨by omega, hcnt2⟩, if_pos hact2]
  have herr : voteCTI (execTrace s₁ ops) voter i up' = .error .alreadyVoted := by
    simp [voteCTI, hvalid, hvoted2]
  exact ⟨herr, step_vote_err _ _ _ _ _ herr⟩

theorem vote_exactly_once_witness :
    voteCTI (execTrace exampleVoted []) "Z" 1 false = .error .alreadyVoted :=
  (vote_exactly_once exampleState exampleVoted "Z" 1 true (by decide) [] false).1

/-- C6: in every reachable state, a `voteCTI` call on an assigned id (all of
which are active) whose sender is that record's submitter reverts with the
`SelfVoteForbidden`-kind error and leaves the storage, hence both tallies,
unchanged — regardless of the prior history. -/
theorem no_self_vote (ops : List Op) (i : Nat) (up : Bool)
    (h1 : 1 ≤ i) (h2 : i ≤ (execTrace initState ops).ctiCounter) :
    voteCTI (execTrace initState ops)
        (ctiRecords (execTrace initState ops) i).submitter i up
      = .error .ownSubmission
    ∧ Err.kind .ownSubmission = .selfVoteForbidden
    ∧ step (execTrace initState ops)
        (.vote (ctiRecords (execTrace initState ops) i).submitter i up)
      = execTrace initState ops := by
  obtain ⟨-, -, hnoself, hactive, -⟩ := inv_reachable ops
  have hact := hactive i h1 h2
  have hvalid : validCTI (execTrace initState ops) i = none := by
    rw [validCTI, if_pos ⟨by omega, h2⟩, if_pos hact]
  have hnv := hnoself i h1 h2
  have herr : voteCTI (execTrace initState ops)
      (ctiRecords (execTrace initState ops) i).submitter i up
      = .error .ownSubmission := by
    simp [voteCTI, hvalid, hnv]
  exact ⟨herr, rfl, step_vote_err _ _ _ _ _ herr⟩

theorem no_self_vote_witness :
    voteCTI (execTrace initState exampleOps)
        (ctiRecords (execTrace initState exampleOps) 1).submitter 1 true
      = .error .ownSubmission :=
  (no_self_vote exampleOps 1 true (by decide) (by decide)).1

/-- C7: `getCTIScore` is `getCTI` mapped through `upvotes − downvotes` over
the signed integers: on every id where `getCTI` returns a record the score is
that record's `upvotes − downvotes`, and on every other id it fails with the
same error, which is always of the `NotFound` kind. -/
theorem score_identity (s : RegState) (i : Nat) :
    getCTIScore s i
      = (getCTI s i).map (fun r => (r.upvotes : Int) - (r.downvotes : Int))
    ∧ (∀ e, getCTIScore s i = .error e → Err.kind e = .notFound) := by
  constructor
  · rw [getCTIScore, getCTI]
    cases hv : validCTI s i with
    | some e => rfl
    | none => rfl
  · intro e he
    rw [getCTIScore] at he
    cases hv : validCTI s i with
    | some e' =>
      rw [hv] at he
      obtain rfl := Except.error.inj he
      exact validCTI_notFound s i _ hv
    | none =>
      rw [hv] at he
      exact Except.noConfusion he

theorem score_identity_witness :
    getCTIScore initState 999
      = (getCTI initState 999).map (fun r => (r.upvotes : Int) - (r.downvotes : Int))
    ∧ Err.kind .ctiDoesNotExist = .notFound :=
  ⟨(score_identity initState 999).1,
   (score_identity initState 999).2 .ctiDoesNotExist (by decide)⟩

/-- C8: `hasUserVoted` has no existence precondition: in any reachable state
it returns `false` on a never-assigned id, and `false` on any id with no
recorded vote by the user, while `getCTI` and `voteCTI` fail with a
`NotFound`-kind error on unassigned or inactive ids. -/
theorem hasUserVoted_no_precondition (ops : List Op) (i : Nat) (a : Address)
    (up : Bool) :
    (¬(1 ≤ i ∧ i ≤ (execTrace initState ops).ctiCounter) →
        hasUserVoted (execTrace initState ops) i a = false)
    ∧ (hasVotedMap (execTrace initState ops) i a = false →
        hasUserVoted (execTrace initState ops) i a = false)
    ∧ ((¬(1 ≤ i ∧ i ≤ (execTrace initState ops).ctiCounter)
          ∨ (ctiRecords (execTrace initState ops) i).isActive = false) →
        (∃ e, getCTI (execTrace initState ops) i = .error e
          ∧ Err.kind e = .notFound)
        ∧ (∃ e, voteCTI (execTrace initState ops) a i up = .error e
          ∧ Err.kind e = .notFound)) := by
  obtain ⟨-, hbnd, -, -, -⟩ := inv_reachable ops
  refine ⟨?_, ?_, ?_⟩
  · intro h
    refine votedLookup_eq_false _ _ _ ?_
    intro hmem
    have := hbnd _ hmem
    simp at this
    omega
  · intro h
    exact h
  · intro h
    by_cases hr : 0 < i ∧ i ≤ (execTrace initState ops).ctiCounter
    · have hact : (ctiRecords (execTrace initState ops) i).isActive = false := by
        rcases h with h | h
        · omega
        · exact h
      have hvalid : validCTI (execTrace initState ops) i = some .ctiNotActive := by
        rw [validCTI, if_pos hr, hact]
        rfl
      exact ⟨⟨.ctiNotActive, getCTI_err _ _ _ hvalid, rfl⟩,
        ⟨.ctiNotActive, voteCTI_err_of_invalid _ _ _ up _ hvalid, rfl⟩⟩
    · have hvalid : validCTI (execTrace initState ops) i = some .ctiDoesNotExist := by
        rw [validCTI, if_neg hr]
      exact ⟨⟨.ctiDoesNotExist, getCTI_err _ _ _ hvalid, rfl⟩,
        ⟨.ctiDoesNotExist, voteCTI_err_of_invalid _ _ _ up _ hvalid, rfl⟩⟩

theorem hasUserVoted_no_precondition_witness :
    hasUserVoted (execTrace initState exampleOps) 999 "A" = false :=
  (hasUserVoted_no_precondition exampleOps 999 "A" true).1 (by decide)

/-- C9: `getActiveCTIs` with a limit outside [1, 100] reverts with the
`InvalidArgument`-kind limit error for every offset and record set, returning
no result list. -/
theorem listActive_invalid_limit (s : RegState) (limit offset : Nat)
    (h : ¬(1 ≤ limit ∧ limit ≤ 100)) :
    getActiveCTIs s limit offset = .error .invalidLimit
    ∧ Err.kind .invalidLimit = .invalidArgument := by
  have h' : ¬(0 < limit ∧ limit ≤ 100) := by omega
  rw [getActiveCTIs, if_neg h']
  exact ⟨rfl, rfl⟩

theorem listActive_invalid_limit_witness :
    (getActiveCTIs exampleState 0 0 = .error .invalidLimit
      ∧ Err.kind .invalidLimit = .invalidArgument)
    ∧ (getActiveCTIs exampleState 101 0 = .error .invalidLimit
      ∧ Err.kind .invalidLimit = .invalidArgument) :=
  ⟨listActive_invalid_limit exampleState 0 0 (by decide),
   listActive_invalid_limit exampleState 101 0 (by decide)⟩

/-- C10: in every reachable state every assigned record is active —
`submitCTI` creates records active and no operation ever clears the flag or
emits `CTIDeactivated` — so `getActiveCTICount` equals `ctiCounter` and the
`validCTI` guard admits every assigned id. -/
theorem all_records_active (ops : List Op) :
    (∀ i, 1 ≤ i → i ≤ (execTrace initState ops).ctiCounter →
        (ctiRecords (execTrace initState ops) i).isActive = true
        ∧ validCTI (execTrace initState ops) i = none)
    ∧ getActiveCTICount (execTrace initState ops)
        = (execTrace initState ops).ctiCounter
    ∧ (∀ n, Event.CTIDeactivated n ∉ (execTrace initState ops).events) := by
  obtain ⟨-, -, -, hactive, hev⟩ := inv_reachable ops
  refine ⟨?_, ?_, hev⟩
  · intro i h1 h2
    have hact := hactive i h1 h2
    refine ⟨hact, ?_⟩
    rw [validCTI, if_pos ⟨by omega, h2⟩, if_pos hact]
  · rw [getActiveCTICount]
    exact countActiveUpTo_all_active _ _ hactive

theorem all_records_active_witness :
    getActiveCTICount (execTrace initState exampleOps)
      = (execTrace initState exampleOps).ctiCounter
    ∧ (ctiRecords (execTrace initState exampleOps) 1).isActive = true :=
  ⟨(all_records_active exampleOps).2.1,
   ((all_records_active exampleOps).1 1 (by decide) (by decide)).1⟩

end CTIRegistry
